import Mathlib

/-!
Shallow embedding of the s_scrapy_project repository: the Scrapy spider
(`vorys/spiders/vorysdata.py`), the SQLite item pipeline
(`vorys/pipelines.py`) and the FastAPI query/command service (`main.py`),
together with proofs checking the natural-language specification against it.

Strings are modelled as Lean `String`; SQL `NULL` / Python `None` is
modelled as `none` in `Option String`.  The Python `str.lower()` and the
SQLite `LIKE` case folding are both modelled by the ASCII lowercase map
`lowerStr` (the strings the program handles are ASCII).
-/

/-! ## String primitives (Python `str.strip`, `str.lower`, `str.replace`, SQL `LIKE`) -/

/-- ASCII whitespace recognizer used by the model of Python `str.strip()`. -/
def isWs (c : Char) : Bool :=
  decide (c = ' ') || decide (c = '\t') || decide (c = '\n') || decide (c = '\r') ||
  decide (c = '\x0b') || decide (c = '\x0c')

/-- Model of Python `str.strip()`: drop whitespace from both ends. -/
def pyStrip (s : String) : String :=
  String.mk (((s.data.dropWhile isWs).reverse.dropWhile isWs).reverse)

/-- ASCII lowercase on one character (Python `str.lower()` restricted to ASCII). -/
def lowerChar (c : Char) : Char :=
  if 65 ≤ c.toNat ∧ c.toNat ≤ 90 then Char.ofNat (c.toNat + 32) else c

/-- ASCII lowercase on a string. -/
def lowerStr (s : String) : String :=
  String.mk (s.data.map lowerChar)

/-- Model of Python `str(x)` on an optional string: `str(None) = "None"`. -/
def pyStr : Option String → String
  | none => "None"
  | some s => s

/-- Boolean test that the first character list is an initial segment of the second. -/
def pfxOf : List Char → List Char → Bool
  | [], _ => true
  | _ :: _, [] => false
  | a :: as, b :: bs => decide (a = b) && pfxOf as bs

/-- Boolean test that the first character list occurs contiguously inside the second. -/
def substrOf : List Char → List Char → Bool
  | ndl, [] => ndl.isEmpty
  | ndl, c :: cs => pfxOf ndl (c :: cs) || substrOf ndl cs

/-- Deletion of every non-overlapping occurrence of `pat`, scanning left to right:
the model of Python `s.replace(pat, "")` for a non-empty `pat`. -/
def replaceDel (pat : List Char) : List Char → List Char
  | [] => []
  | c :: cs =>
    if 1 ≤ pat.length ∧ pfxOf pat (c :: cs) = true then
      replaceDel pat (cs.drop (pat.length - 1))
    else
      c :: replaceDel pat cs
termination_by l => l.length
decreasing_by
  · simp only [List.length_cons]
    have := List.length_drop (pat.length - 1) cs
    omega
  · simp only [List.length_cons]
    omega

/-- Model of Python `s.replace(pat, "")`. -/
def pyReplaceDel (s pat : String) : String :=
  String.mk (replaceDel pat.data s.data)

/-! ## Extraction Job: `VorysdataSpider.parse` (`vorys/spiders/vorysdata.py`) -/

/-- One repeated `ul.results_list li` member block of the listing page, as the
four CSS selector results the spider reads from it (`none` models a selector
that matches nothing, i.e. `.get()` returning `None`). -/
structure MemberBlock where
  nameText : Option String
  positionText : Option String
  officeText : Option String
  emailHref : Option String
deriving DecidableEq, Repr

/-- Raw candidate record yielded by the spider: the dict
with keys name, position, location, email (values may be `None`). -/
structure Item where
  name : Option String
  position : Option String
  location : Option String
  email : Option String
deriving DecidableEq, Repr

/-- Email extraction of `VorysdataSpider.parse`: read the `div.email a` href and
strip the `mailto:` scheme; when the selector yields `None` the `.replace` call
raises and the bare `except` degrades the email to `None`. -/
def extractEmail (m : MemberBlock) : Option String :=
  match m.emailHref with
  | none => none
  | some h => some (pyReplaceDel h "mailto:")

/-- One member block parsed into the yielded raw record. -/
def parseMember (m : MemberBlock) : Item :=
  { name := m.nameText
    position := m.positionText
    location := m.officeText
    email := extractEmail m }

/-- Model of `VorysdataSpider.parse`: every member block of the page, in order. -/
def parse (members : List MemberBlock) : List Item :=
  members.map parseMember

/-! ## Record Store: the `vorysdata` table (`vorys/pipelines.py` schema) -/

/-- One row of the `vorysdata` table: four nullable TEXT columns with
constraint UNIQUE(name, location, email). -/
structure Row where
  name : Option String
  position : Option String
  location : Option String
  email : Option String
deriving DecidableEq, Repr

/-- Table state: the rows in rowid (insertion) order. -/
abbrev DBState := List Row

/-- SQLite conflict test of row `x` against a candidate insert `r` for
UNIQUE(name, location, email): the three columns agree and none of the
candidate values is NULL (SQL UNIQUE treats NULLs as distinct). -/
def tripleConflict (x r : Row) : Bool :=
  decide (x.name = r.name ∧ x.location = r.location ∧ x.email = r.email ∧
    r.name ≠ none ∧ r.location ≠ none ∧ r.email ≠ none)

/-- Action of the upsert's DO UPDATE clause on one row: a conflicting row gets
the excluded record's position, all other rows are untouched. -/
def updPos (r x : Row) : Row :=
  if tripleConflict x r then { x with position := r.position } else x

/-- The pipeline's SQL statement
INSERT ... ON CONFLICT(name, location, email) DO UPDATE SET position = excluded.position:
append the row when no row conflicts, otherwise update the conflicting row's position. -/
def upsert (db : DBState) (r : Row) : DBState :=
  if db.any (fun x => tripleConflict x r) then db.map (updPos r) else db ++ [r]

/-! ## Ingestion Pipeline: `VorysPipeline.process_item` (`vorys/pipelines.py`) -/

/-- Normalization `str(v).strip().lower()` applied to name, location, email. -/
def normalizeLower (v : Option String) : String :=
  lowerStr (pyStrip (pyStr v))

/-- Normalization `str(v).strip()` applied to position (case preserved). -/
def normalizeKeep (v : Option String) : String :=
  pyStrip (pyStr v)

/-- Row bound into the pipeline's INSERT: the four normalized fields, each a
(non-NULL) string. -/
def normRow (item : Item) : Row :=
  { name := some (normalizeLower item.name)
    position := some (normalizeKeep item.position)
    location := some (normalizeLower item.location)
    email := some (normalizeLower item.email) }

/-- One call of `VorysPipeline.process_item` with an explicit fault model:
`dberr db r = true` means the sqlite3 execute/commit for this record raises
`sqlite3.Error` in state `db`; the except branch logs and leaves the store
unchanged.  The item is returned downstream in either case.  The source's
`if not any([name, position, location, email]): pass` is the discarded
`allEmpty` binding: its body is `pass`, so it has no effect. -/
def process_item_f (dberr : DBState → Row → Bool) (db : DBState) (item : Item) :
    DBState × Item :=
  let name := normalizeLower item.name
  let position := normalizeKeep item.position
  let location := normalizeLower item.location
  let email := normalizeLower item.email
  let _allEmpty := decide (name = "" ∧ position = "" ∧ location = "" ∧ email = "")
  let r : Row := { name := some name, position := some position,
                   location := some location, email := some email }
  if dberr db r then (db, item) else (upsert db r, item)

/-- The fault-free run of `process_item` (the sqlite3 calls succeed). -/
def process_item (db : DBState) (item : Item) : DBState × Item :=
  process_item_f (fun _ _ => false) db item

/-- Variant of `process_item` with the dead "skip if all fields empty" branch
deleted, used to state that the branch has no effect. -/
def process_item_noCheck (db : DBState) (item : Item) : DBState × Item :=
  let r := normRow item
  (upsert db r, item)

/-- Folding the pipeline over the spider's emitted sequence, one record at a
time, under the fault model `dberr`. -/
def processItems (dberr : DBState → Row → Bool) : List Item → DBState → DBState
  | [], db => db
  | i :: is, db => processItems dberr is (process_item_f dberr db i).1

/-! ## Query/Command Service (`main.py`) -/

/-- Request body of the create and update routes (pydantic model `ScrapedData`):
four required strings. -/
structure ScrapedData where
  name : String
  position : String
  location : String
  email : String
deriving DecidableEq, Repr

/-- One row as the API sees it: the reflected table's identity column plus the
four TEXT columns. -/
structure ApiRow where
  id : Nat
  name : Option String
  position : Option String
  location : Option String
  email : Option String
deriving DecidableEq, Repr

/-- API-side table state, in rowid order. -/
abbrev ApiDB := List ApiRow

/-- Violation of UNIQUE(name, location, email) between two rows: the columns
agree and none is NULL. -/
def apiKeyClash (a b : ApiRow) : Bool :=
  decide (a.name = b.name ∧ a.location = b.location ∧ a.email = b.email ∧
    a.name ≠ none ∧ a.location ≠ none ∧ a.email ≠ none)

/-- Whether a table state satisfies the uniqueness constraint. -/
def clashFree : ApiDB → Bool
  | [] => true
  | x :: xs => !(xs.any (fun y => apiKeyClash x y)) && clashFree xs

/-- Store-assigned id for a fresh insert (SQLite rowid: one more than the
largest in use). -/
def freshId (st : ApiDB) : Nat :=
  (st.map (fun x => x.id)).foldr max 0 + 1

/-- Row built from a create payload: the four strings plus the store-assigned id. -/
def newApiRow (data : ScrapedData) (st : ApiDB) : ApiRow :=
  { id := freshId st, name := some data.name, position := some data.position,
    location := some data.location, email := some data.email }

/-- Model of POST `/sourav/add` (`add_scraped_data`): INSERT of the four payload
strings; on a raised IntegrityError the session is rolled back and an
HTTP 400 with a descriptive detail is returned, otherwise commit and a
success message. -/
def add_scraped_data (data : ScrapedData) (st : ApiDB) : ApiDB × Except String String :=
  if st.any (fun x => apiKeyClash x (newApiRow data st)) then
    (st, Except.error "Failed to add data: UNIQUE constraint failed")
  else
    (st ++ [newApiRow data st], Except.ok "Data added successfully")

/-- Action of the UPDATE ... WHERE id = data_id statement on one row. -/
def applyUpd (data_id : Nat) (data : ScrapedData) (x : ApiRow) : ApiRow :=
  if x.id = data_id then
    { x with name := some data.name, position := some data.position,
             location := some data.location, email := some data.email }
  else x

/-- Model of PUT `/sourav/update/(data_id)` (`update_scraped_data`): UPDATE of all
four columns on every row whose id matches (zero rows when the id is absent);
on a raised error the session is rolled back and an HTTP 400 is returned,
otherwise commit and a success message. -/
def update_scraped_data (data_id : Nat) (data : ScrapedData) (st : ApiDB) :
    ApiDB × Except String String :=
  if clashFree (st.map (applyUpd data_id data)) then
    (st.map (applyUpd data_id data), Except.ok "Data updated successfully")
  else
    (st, Except.error "Failed to update data: UNIQUE constraint failed")

/-- Model of DELETE `/sourav/delete/(name)` (`delete_scraped_data`): DELETE of
every row whose name column equals the given string (bulk, by name). -/
def delete_scraped_data (name : String) (st : ApiDB) : ApiDB × Except String String :=
  (st.filter (fun x => decide (x.name ≠ some name)), Except.ok "Data deleted successfully")

/-- SQL `col ILIKE concat of percent, pat, percent`: case-insensitive containment of `pat`
in the column; a NULL column satisfies no LIKE condition. -/
def colIlike (col : Option String) (pat : String) : Bool :=
  match col with
  | none => false
  | some s => substrOf (lowerStr pat).data (lowerStr s).data

/-- Model of GET `/sourav/search` (`search_scraped_data`): when the name filter is
non-empty, keep rows whose name column ILIKE-contains `name.lower()`; then the
same for the location filter.  Empty filters add no WHERE clause. -/
def search_scraped_data (name location : String) (st : ApiDB) : ApiDB :=
  let q1 := if name = "" then st else st.filter (fun r => colIlike r.name (lowerStr name))
  if location = "" then q1 else q1.filter (fun r => colIlike r.location (lowerStr location))

/-- Model of GET `/sourav/paginated` (`paginated_scraped_data`): SELECT with
OFFSET `skip` LIMIT `limit`, in rowid order. -/
def paginated_scraped_data (skip limit : Nat) (st : ApiDB) : ApiDB :=
  (st.drop skip).take limit

/-- The module-level `scraping_status` dict of `main.py`. -/
structure ScrapingStatus where
  running : Bool
deriving DecidableEq, Repr

/-- Model of GET `/` (`run_scraper_async`): add `run_spider` as a background task
and return at once; the handler neither reads nor writes the flag, and the
response body is the fixed started message. -/
def run_scraper_async (st : ScrapingStatus) : ScrapingStatus × String :=
  (st, "Spider started in background")

/-- First statement of `run_spider`: set the running flag. -/
def run_spider_start (st : ScrapingStatus) : ScrapingStatus :=
  { st with running := true }

/-- The `finally` block of `run_spider`: clear the running flag whether the
crawl subprocess succeeded (`ok = true`) or raised (`ok = false`). -/
def run_spider_finish (st : ScrapingStatus) (_ok : Bool) : ScrapingStatus :=
  { st with running := false }

/-- A whole `run_spider` background run, from start transition to the `finally`. -/
def run_spider (st : ScrapingStatus) (ok : Bool) : ScrapingStatus :=
  run_spider_finish (run_spider_start st) ok

/-- Model of GET `/status` (`get_scrape_status`): report the flag. -/
def get_scrape_status (st : ScrapingStatus) : Bool :=
  st.running

/-! ## Store invariants -/

/-- Key coincidence of two table rows in the sense of the UNIQUE constraint:
all three key columns agree and are non-NULL. -/
def sameKey (a b : Row) : Prop :=
  a.name = b.name ∧ a.location = b.location ∧ a.email = b.email ∧
    b.name ≠ none ∧ b.location ≠ none ∧ b.email ≠ none

instance (a b : Row) : Decidable (sameKey a b) := by
  unfold sameKey
  infer_instance

/-- The uniqueness invariant UNIQUE(name, location, email) on a table state:
no two rows share a fully non-NULL key triple. -/
def UniqueStore (db : DBState) : Prop :=
  List.Pairwise (fun a b => ¬ sameKey a b) db

instance (db : DBState) : Decidable (UniqueStore db) := by
  unfold UniqueStore
  exact List.instDecidablePairwise db

/-- Number of rows of `db` that conflict with the candidate row `r`. -/
def keyCount (db : DBState) (r : Row) : Nat :=
  (db.filter (fun x => tripleConflict x r)).length

/-! ## Supporting lemmas -/

theorem char_toNat_ofNat_valid (n : Nat) (h : n.isValidChar) : (Char.ofNat n).toNat = n := by
  simp [Char.ofNat, h, Char.ofNatAux, Char.toNat]
  rfl

theorem lowerChar_eq_ite (c : Char) :
    lowerChar c = if 65 ≤ c.toNat ∧ c.toNat ≤ 90 then Char.ofNat (c.toNat + 32) else c := rfl

theorem lowerChar_toNat_not_upper (c : Char) :
    ¬ (65 ≤ (lowerChar c).toNat ∧ (lowerChar c).toNat ≤ 90) := by
  rw [lowerChar_eq_ite]
  by_cases h : 65 ≤ c.toNat ∧ c.toNat ≤ 90
  · rw [if_pos h]
    have hv : (c.toNat + 32).isValidChar := Or.inl (by omega)
    rw [char_toNat_ofNat_valid (c.toNat + 32) hv]
    omega
  · rw [if_neg h]
    exact h

theorem lowerChar_lowerChar (c : Char) : lowerChar (lowerChar c) = lowerChar c := by
  rw [lowerChar_eq_ite (lowerChar c), if_neg (lowerChar_toNat_not_upper c)]

theorem lowerStr_idem (s : String) : lowerStr (lowerStr s) = lowerStr s := by
  unfold lowerStr
  simp only [List.map_map]
  exact congrArg String.mk (List.map_congr_left (fun a _ => lowerChar_lowerChar a))

theorem colIlike_lower_iff (col : Option String) (pat : String) :
    colIlike col (lowerStr pat) = true ↔
      ∃ s, col = some s ∧ substrOf (lowerStr pat).data (lowerStr s).data = true := by
  cases col with
  | none => simp [colIlike]
  | some s =>
    unfold colIlike
    rw [lowerStr_idem]
    simp

theorem mem_search_iff (n l : String) (st : ApiDB) (r : ApiRow) :
    r ∈ search_scraped_data n l st ↔
      r ∈ st ∧ (n = "" ∨ colIlike r.name (lowerStr n) = true)
             ∧ (l = "" ∨ colIlike r.location (lowerStr l) = true) := by
  unfold search_scraped_data
  by_cases hn : n = "" <;> by_cases hl : l = "" <;>
    simp [hn, hl, List.mem_filter] <;> tauto

theorem conflict_fields {x r : Row} (h : tripleConflict x r = true) :
    x.name = r.name ∧ x.location = r.location ∧ x.email = r.email := by
  simp only [tripleConflict, decide_eq_true_eq] at h
  exact ⟨h.1, h.2.1, h.2.2.1⟩

theorem conflict_nonnull {x r : Row} (h : tripleConflict x r = true) :
    r.name ≠ none ∧ r.location ≠ none ∧ r.email ≠ none := by
  simp only [tripleConflict, decide_eq_true_eq] at h
  exact ⟨h.2.2.2.1, h.2.2.2.2.1, h.2.2.2.2.2⟩

theorem updPos_name (r x : Row) : (updPos r x).name = x.name := by
  unfold updPos; split <;> rfl

theorem updPos_location (r x : Row) : (updPos r x).location = x.location := by
  unfold updPos; split <;> rfl

theorem updPos_email (r x : Row) : (updPos r x).email = x.email := by
  unfold updPos; split <;> rfl

theorem updPos_conflict (r r2 x : Row) :
    tripleConflict (updPos r x) r2 = tripleConflict x r2 := by
  unfold tripleConflict
  rw [decide_eq_decide, updPos_name, updPos_location, updPos_email]

theorem keyCount_map_updPos (db : DBState) (r r2 : Row) :
    keyCount (db.map (updPos r)) r2 = keyCount db r2 := by
  induction db with
  | nil => rfl
  | cons a as ih =>
    simp only [List.map_cons, keyCount, List.filter_cons] at *
    rw [updPos_conflict]
    by_cases h : tripleConflict a r2 = true <;> simp [h, ih]

theorem keyCount_append_single (db : DBState) (r1 r2 : Row) :
    keyCount (db ++ [r1]) r2
      = keyCount db r2 + (if tripleConflict r1 r2 then 1 else 0) := by
  simp only [keyCount, List.filter_append, List.length_append]
  by_cases h : tripleConflict r1 r2 = true <;> simp [h, List.filter_cons]

theorem keyCount_le_one {db : DBState} (hU : UniqueStore db) (r : Row) :
    keyCount db r ≤ 1 := by
  induction db with
  | nil => exact Nat.zero_le 1
  | cons a as ih =>
    rw [UniqueStore, List.pairwise_cons] at hU
    obtain ⟨ha, has⟩ := hU
    have ih1 := ih has
    simp only [keyCount, List.filter_cons]
    by_cases h : tripleConflict a r = true
    · rw [if_pos h]
      have hz : as.filter (fun x => tripleConflict x r) = [] := by
        rw [List.filter_eq_nil_iff]
        intro b hb hc
        apply ha b hb
        obtain ⟨hn1, hl1, he1⟩ := conflict_fields h
        obtain ⟨hn2, hl2, he2⟩ := conflict_fields hc
        obtain ⟨gn, gl, ge⟩ := conflict_nonnull h
        refine ⟨hn1.trans hn2.symm, hl1.trans hl2.symm, he1.trans he2.symm, ?_, ?_, ?_⟩
        · rw [hn2]; exact gn
        · rw [hl2]; exact gl
        · rw [he2]; exact ge
      rw [hz]
      exact Nat.le_refl 1
    · rw [if_neg h]
      exact ih1

theorem keyCount_pos_iff (db : DBState) (r : Row) :
    db.any (fun x => tripleConflict x r) = true ↔ 0 < keyCount db r := by
  rw [List.any_eq_true, keyCount, List.length_pos_iff_exists_mem]
  constructor
  · rintro ⟨x, hx, hc⟩
    exact ⟨x, List.mem_filter.mpr ⟨hx, hc⟩⟩
  · rintro ⟨x, hx⟩
    obtain ⟨h1, h2⟩ := List.mem_filter.mp hx
    exact ⟨x, h1, h2⟩

theorem mem_map_updPos_position {db : DBState} {r x : Row}
    (hx : x ∈ db.map (updPos r)) (hc : tripleConflict x r = true) :
    x.position = r.position := by
  obtain ⟨y, hy, rfl⟩ := List.mem_map.mp hx
  by_cases h : tripleConflict y r = true
  · unfold updPos
    rw [if_pos h]
  · have he : updPos r y = y := by unfold updPos; rw [if_neg h]
    rw [he] at hc
    exact absurd hc h

theorem upsert_eq_map {db : DBState} {r : Row}
    (h : db.any (fun x => tripleConflict x r) = true) :
    upsert db r = db.map (updPos r) := by
  unfold upsert
  rw [if_pos h]

theorem upsert_eq_append {db : DBState} {r : Row}
    (h : db.any (fun x => tripleConflict x r) = false) :
    upsert db r = db ++ [r] := by
  unfold upsert
  simp [h]

theorem process_item_fst (db : DBState) (it : Item) :
    (process_item db it).1 = upsert db (normRow it) := rfl

theorem process_item_snd (db : DBState) (it : Item) :
    (process_item db it).2 = it := rfl

theorem keyCount_congr (db : DBState) {r1 r2 : Row}
    (h : ∀ x, tripleConflict x r1 = tripleConflict x r2) :
    keyCount db r1 = keyCount db r2 := by
  unfold keyCount
  congr 1
  exact List.filter_congr (fun x _ => h x)

/-- C1: after submitting two candidate records with identical normalized
(name, location, email) triples and different positions to the ingestion
upsert, the store holds exactly one row for that triple; its position is the
second record's position, its key fields are the shared triple, and the second
submission adds no row. -/
theorem C1_upsert_no_duplicate (db : DBState) (i1 i2 : Item)
    (hU : UniqueStore db)
    (hname : (normRow i1).name = (normRow i2).name)
    (hloc : (normRow i1).location = (normRow i2).location)
    (hmail : (normRow i1).email = (normRow i2).email)
    (hpos : (normRow i1).position ≠ (normRow i2).position) :
    keyCount (process_item (process_item db i1).1 i2).1 (normRow i2) = 1
    ∧ (∀ x ∈ (process_item (process_item db i1).1 i2).1,
        tripleConflict x (normRow i2) = true →
          x.position = (normRow i2).position ∧ x.name = (normRow i2).name ∧
          x.location = (normRow i2).location ∧ x.email = (normRow i2).email)
    ∧ (process_item (process_item db i1).1 i2).1.length
        = (process_item db i1).1.length := by
  have htrans : ∀ x, tripleConflict x (normRow i1) = tripleConflict x (normRow i2) := by
    intro x
    unfold tripleConflict
    rw [decide_eq_decide, hname, hloc, hmail]
  cases h : (db.any fun x => tripleConflict x (normRow i1)) with
  | true =>
    have hdb1 : (process_item db i1).1 = db.map (updPos (normRow i1)) := by
      rw [process_item_fst, upsert_eq_map h]
    have hcnt : keyCount db (normRow i2) = keyCount db (normRow i1) :=
      keyCount_congr db (fun x => (htrans x).symm)
    have hany2 : ((db.map (updPos (normRow i1))).any
        fun x => tripleConflict x (normRow i2)) = true := by
      rw [keyCount_pos_iff, keyCount_map_updPos, hcnt]
      exact (keyCount_pos_iff db (normRow i1)).mp h
    have hdb2 : (process_item (process_item db i1).1 i2).1
        = (db.map (updPos (normRow i1))).map (updPos (normRow i2)) := by
      rw [process_item_fst, hdb1, upsert_eq_map hany2]
    refine ⟨?_, ?_, ?_⟩
    · rw [hdb2, keyCount_map_updPos, keyCount_map_updPos, hcnt]
      have hle := keyCount_le_one hU (normRow i1)
      have hgt := (keyCount_pos_iff db (normRow i1)).mp h
      omega
    · intro x hx hc
      rw [hdb2] at hx
      exact ⟨mem_map_updPos_position hx hc,
             (conflict_fields hc).1, (conflict_fields hc).2.1, (conflict_fields hc).2.2⟩
    · rw [hdb2, hdb1]
      simp
  | false =>
    have h2 : (db.any fun x => tripleConflict x (normRow i2)) = false := by
      simp only [← htrans]
      exact h
    have hdb1 : (process_item db i1).1 = db ++ [normRow i1] := by
      rw [process_item_fst, upsert_eq_append h]
    have hc12 : tripleConflict (normRow i1) (normRow i2) = true := by
      simp only [tripleConflict, decide_eq_true_eq]
      exact ⟨hname, hloc, hmail, by simp [normRow], by simp [normRow], by simp [normRow]⟩
    have hany2 : ((db ++ [normRow i1]).any
        fun x => tripleConflict x (normRow i2)) = true := by
      simp [List.any_append, hc12]
    have hdb2 : (process_item (process_item db i1).1 i2).1
        = (db ++ [normRow i1]).map (updPos (normRow i2)) := by
      rw [process_item_fst, hdb1, upsert_eq_map hany2]
    have hz : keyCount db (normRow i2) = 0 := by
      by_contra hnz
      have hp : (db.any fun x => tripleConflict x (normRow i2)) = true :=
        (keyCount_pos_iff db (normRow i2)).mpr (Nat.pos_of_ne_zero hnz)
      rw [h2] at hp
      exact Bool.noConfusion hp
    refine ⟨?_, ?_, ?_⟩
    · rw [hdb2, keyCount_map_updPos, keyCount_append_single, hz, if_pos hc12]
    · intro x hx hc
      rw [hdb2] at hx
      exact ⟨mem_map_updPos_position hx hc,
             (conflict_fields hc).1, (conflict_fields hc).2.1, (conflict_fields hc).2.2⟩
    · rw [hdb2, hdb1]
      simp

theorem upsert_mem_email (db : DBState) (r : Row) :
    ∃ x ∈ upsert db r, x.email = r.email := by
  cases h : (db.any fun x => tripleConflict x r) with
  | true =>
    rw [upsert_eq_map h]
    obtain ⟨y, hy, hc⟩ := List.any_eq_true.mp h
    refine ⟨updPos r y, List.mem_map_of_mem _ hy, ?_⟩
    rw [updPos_email]
    exact (conflict_fields hc).2.2
  | false =>
    rw [upsert_eq_append h]
    exact ⟨r, by simp, rfl⟩

theorem processItems_append (dberr : DBState → Row → Bool) (xs ys : List Item)
    (db : DBState) :
    processItems dberr (xs ++ ys) db = processItems dberr ys (processItems dberr xs db) := by
  induction xs generalizing db with
  | nil => rfl
  | cons a as ih =>
    simp only [List.cons_append, processItems]
    exact ih _

theorem process_item_f_err {dberr : DBState → Row → Bool} {db : DBState} {it : Item}
    (h : dberr db (normRow it) = true) :
    process_item_f dberr db it = (db, it) := by
  show (if dberr db (normRow it) then (db, it) else (upsert db (normRow it), it)) = (db, it)
  rw [if_pos h]

/-! ## Claim witnesses and remaining claim theorems -/

/-- C1 witness: the dedup theorem applied to the empty store and two concrete
records sharing the normalized triple (jane, columbus, j@x.com) with positions
Partner and Senior Partner. -/
theorem C1_upsert_no_duplicate_witness :
    keyCount (process_item (process_item []
        ⟨some "Jane", some "Partner", some "Columbus", some "j@x.com"⟩).1
        ⟨some "Jane", some "Senior Partner", some "Columbus", some "j@x.com"⟩).1
      (normRow ⟨some "Jane", some "Senior Partner", some "Columbus", some "j@x.com"⟩) = 1 :=
  (C1_upsert_no_duplicate []
    ⟨some "Jane", some "Partner", some "Columbus", some "j@x.com"⟩
    ⟨some "Jane", some "Senior Partner", some "Columbus", some "j@x.com"⟩
    (by decide) (by decide) (by decide) (by decide) (by decide)).1

/-- C2 (counterexample): at a member block whose email selector matches nothing,
the spider emits a null email, but the stored row's email is the literal string
"none": no row of the resulting store has a NULL email, contradicting the
claim that the stored email field is null. -/
theorem C2_stored_email_not_null :
    (process_item [] (parseMember ⟨some "Al", some "Partner", some "Columbus", none⟩)).1
      = [⟨some "al", some "Partner", some "columbus", some "none"⟩]
    ∧ (parseMember ⟨some "Al", some "Partner", some "Columbus", none⟩).email = none
    ∧ ¬ ∃ x ∈ (process_item []
        (parseMember ⟨some "Al", some "Partner", some "Columbus", none⟩)).1,
        x.email = none := by
  refine ⟨by decide, by decide, by decide⟩

/-- C2 (amended): a member block with no locatable email sub-field does not
abort extraction: the record is emitted with a null email, ingestion still
attempts the upsert and produces a stored row whose email field is the
normalized text rendering "none" of the null (not SQL NULL), and processing
continues with the next candidate without raising. -/
theorem C2_missing_email_degrades (m : MemberBlock) (db : DBState) (rest : List Item)
    (h : m.emailHref = none) :
    (parseMember m).email = none
    ∧ (normRow (parseMember m)).email = some "none"
    ∧ (process_item db (parseMember m)).1 = upsert db (normRow (parseMember m))
    ∧ (∃ x ∈ (process_item db (parseMember m)).1, x.email = some "none")
    ∧ processItems (fun _ _ => false) (parseMember m :: rest) db
        = processItems (fun _ _ => false) rest (process_item db (parseMember m)).1 := by
  have he : (parseMember m).email = none := by
    simp [parseMember, extractEmail, h]
  have hne : (normRow (parseMember m)).email = some "none" := by
    show some (normalizeLower (parseMember m).email) = some "none"
    rw [he]
    decide
  refine ⟨he, hne, rfl, ?_, rfl⟩
  have hmem := upsert_mem_email db (normRow (parseMember m))
  rw [hne] at hmem
  rw [process_item_fst]
  exact hmem

/-- C2 witness: the amended theorem applied to a concrete member block with no
email href. -/
theorem C2_missing_email_degrades_witness :
    (normRow (parseMember ⟨some "Al", some "Partner", some "Columbus", none⟩)).email
      = some "none" :=
  (C2_missing_email_degrades ⟨some "Al", some "Partner", some "Columbus", none⟩ [] [] rfl).2.1

/-- C3: normalization trims whitespace from all four fields, lowercases name,
location and email, and preserves the case of position; in particular the raw
Jane Doe record is stored exactly as the spec's scenario says. -/
theorem C3_normalization :
    (∀ (n p l e : String) (db : DBState),
      (process_item db ⟨some n, some p, some l, some e⟩).1
        = upsert db ⟨some (lowerStr (pyStrip n)), some (pyStrip p),
                     some (lowerStr (pyStrip l)), some (lowerStr (pyStrip e))⟩)
    ∧ process_item []
        ⟨some " Jane Doe ", some "Partner", some "Columbus", some "JDoe@Example.com"⟩
      = ([⟨some "jane doe", some "Partner", some "columbus", some "jdoe@example.com"⟩],
         ⟨some " Jane Doe ", some "Partner", some "Columbus", some "JDoe@Example.com"⟩) :=
  ⟨fun n p l e db => rfl, by decide⟩

/-- C4: with the store's identity column unique (SQLite rowids always are), the
first two pages of size N are disjoint and concatenate, in order, to the single
page of size 2N. -/
theorem C4_pagination_split (st : ApiDB) (N : Nat)
    (h : (st.map (fun x => x.id)).Nodup) :
    paginated_scraped_data 0 N st ++ paginated_scraped_data N N st
      = paginated_scraped_data 0 (2 * N) st
    ∧ ∀ r ∈ paginated_scraped_data 0 N st, r ∉ paginated_scraped_data N N st := by
  have hn : st.Nodup := List.Nodup.of_map _ h
  have key : paginated_scraped_data 0 N st ++ paginated_scraped_data N N st
      = paginated_scraped_data 0 (2 * N) st := by
    unfold paginated_scraped_data
    rw [List.drop_zero, two_mul, List.take_add]
  refine ⟨key, ?_⟩
  have hnodup : (paginated_scraped_data 0 N st ++ paginated_scraped_data N N st).Nodup := by
    rw [key]
    unfold paginated_scraped_data
    rw [List.drop_zero]
    exact List.Nodup.sublist (List.take_sublist _ _) hn
  rw [List.nodup_append] at hnodup
  intro r hr hr2
  exact hnodup.2.2 hr hr2

/-- C4 witness: the pagination split at N = 1 on a concrete two-row table. -/
theorem C4_pagination_split_witness :
    paginated_scraped_data 0 1 [⟨1, none, none, none, none⟩, ⟨2, none, none, none, none⟩]
      ++ paginated_scraped_data 1 1 [⟨1, none, none, none, none⟩, ⟨2, none, none, none, none⟩]
      = paginated_scraped_data 0 (2 * 1)
          [⟨1, none, none, none, none⟩, ⟨2, none, none, none, none⟩] :=
  (C4_pagination_split [⟨1, none, none, none, none⟩, ⟨2, none, none, none, none⟩] 1
    (by decide)).1

/-- C5 (counterexample): an update against a non-existent id is not reported as
a failure: on the empty store, updating id 7 returns the success message and
changes nothing, where the claim requires a descriptive error. -/
theorem C5_update_absent_id_succeeds :
    update_scraped_data 7 ⟨"n", "p", "l", "e"⟩ []
      = ([], Except.ok "Data updated successfully") := rfl

/-- C5 (amended): a create or update command whose database execution fails
(e.g. a uniqueness-constraint violation) returns a descriptive error and
leaves the store in its pre-call state (per-operation rollback); delete-by-name
always succeeds; and an update against an id absent from the store is not a
failure: it succeeds as a no-op. -/
theorem C5_command_rollback (d : ScrapedData) (data_id : Nat) (nm : String)
    (st : ApiDB) (e : String) :
    ((add_scraped_data d st).2 = Except.error e →
       (add_scraped_data d st).1 = st ∧ e ≠ "")
    ∧ ((update_scraped_data data_id d st).2 = Except.error e →
       (update_scraped_data data_id d st).1 = st ∧ e ≠ "")
    ∧ (delete_scraped_data nm st).2 = Except.ok "Data deleted successfully"
    ∧ ((∀ x ∈ st, x.id ≠ data_id) → clashFree st = true →
         update_scraped_data data_id d st = (st, Except.ok "Data updated successfully")) := by
  refine ⟨?_, ?_, rfl, ?_⟩
  · intro h
    unfold add_scraped_data at h ⊢
    by_cases hc : (st.any fun x => apiKeyClash x (newApiRow d st)) = true
    · rw [if_pos hc] at h ⊢
      have h2 : (Except.error "Failed to add data: UNIQUE constraint failed"
          : Except String String) = Except.error e := h
      injection h2 with he
      refine ⟨rfl, ?_⟩
      rw [← he]
      decide
    · rw [if_neg hc] at h
      exact Except.noConfusion h
  · intro h
    unfold update_scraped_data at h ⊢
    by_cases hc : clashFree (st.map (applyUpd data_id d)) = true
    · rw [if_pos hc] at h
      exact Except.noConfusion h
    · rw [if_neg hc] at h ⊢
      have h2 : (Except.error "Failed to update data: UNIQUE constraint failed"
          : Except String String) = Except.error e := h
      injection h2 with he
      refine ⟨rfl, ?_⟩
      rw [← he]
      decide
  · intro hid hcf
    have hmap : st.map (applyUpd data_id d) = st := by
      have hpt : ∀ x ∈ st, applyUpd data_id d x = x := by
        intro x hx
        unfold applyUpd
        rw [if_neg (hid x hx)]
      calc st.map (applyUpd data_id d) = st.map (fun x => x) := List.map_congr_left hpt
        _ = st := List.map_id st
    unfold update_scraped_data
    rw [hmap, if_pos hcf]

/-- C5 witness: the rollback theorem exercised on a concrete failing create (a
duplicate of an existing (name, location, email) triple). -/
theorem C5_command_rollback_witness :
    (add_scraped_data ⟨"a", "q", "l", "e"⟩ [⟨1, some "a", some "p", some "l", some "e"⟩]).1
      = [⟨1, some "a", some "p", some "l", some "e"⟩]
    ∧ "Failed to add data: UNIQUE constraint failed" ≠ "" :=
  (C5_command_rollback ⟨"a", "q", "l", "e"⟩ 0 "z"
      [⟨1, some "a", some "p", some "l", some "e"⟩]
      "Failed to add data: UNIQUE constraint failed").1 rfl

/-- C6: when the storage-layer upsert of one record raises, the error is
absorbed: the store is unchanged by that record, the item is still returned,
and the run continues with the records after it from exactly the state the
earlier per-record commits produced. -/
theorem C6_per_record_failure (dberr : DBState → Row → Bool) (db : DBState)
    (pre post : List Item) (x : Item)
    (hf : dberr (processItems dberr pre db) (normRow x) = true) :
    processItems dberr (pre ++ x :: post) db
      = processItems dberr post (processItems dberr pre db)
    ∧ (process_item_f dberr (processItems dberr pre db) x).1
        = processItems dberr pre db
    ∧ (process_item_f dberr (processItems dberr pre db) x).2 = x := by
  have hstep := process_item_f_err hf
  refine ⟨?_, by rw [hstep], by rw [hstep]⟩
  rw [processItems_append]
  show processItems dberr post (process_item_f dberr (processItems dberr pre db) x).1 = _
  rw [hstep]

/-- C6 witness: a fault model that raises exactly on the record whose
normalized position is BOOM, exercised on a concrete three-record run. -/
theorem C6_per_record_failure_witness :
    processItems (fun _ r => decide (r.position = some "BOOM"))
        ([] ++ ⟨some "a", some "BOOM", some "l", some "e"⟩
          :: [⟨some "b", some "q", some "lb", some "eb"⟩]) []
      = processItems (fun _ r => decide (r.position = some "BOOM"))
          [⟨some "b", some "q", some "lb", some "eb"⟩]
          (processItems (fun _ r => decide (r.position = some "BOOM")) [] []) :=
  (C6_per_record_failure (fun _ r => decide (r.position = some "BOOM")) []
    [] [⟨some "b", some "q", some "lb", some "eb"⟩]
    ⟨some "a", some "BOOM", some "l", some "e"⟩ (by decide)).1

/-- C7: filtered search keeps exactly the rows of the table that pass a
case-insensitive substring test on each supplied filter, an empty filter
imposing no constraint; in particular a row with location columbus is returned
by the search for location Colum. -/
theorem C7_search_ci_substring :
    (∀ (n l : String) (st : ApiDB) (r : ApiRow),
      r ∈ search_scraped_data n l st ↔
        r ∈ st
        ∧ (n = "" ∨ ∃ s, r.name = some s ∧
            substrOf (lowerStr n).data (lowerStr s).data = true)
        ∧ (l = "" ∨ ∃ s, r.location = some s ∧
            substrOf (lowerStr l).data (lowerStr s).data = true))
    ∧ search_scraped_data "" "Colum"
        [⟨1, some "john", some "Partner", some "columbus", some "j@x.com"⟩]
      = [⟨1, some "john", some "Partner", some "columbus", some "j@x.com"⟩] := by
  constructor
  · intro n l st r
    rw [mem_search_iff, colIlike_lower_iff, colIlike_lower_iff]
  · decide

/-- C8: a record whose four normalized fields are all empty is still passed
downstream and its insert is still attempted, and the pipeline behaves
identically with the dead "skip if all fields empty" branch removed. -/
theorem C8_skip_check_noop (db : DBState) (it : Item)
    (h : (normRow it).name = some "" ∧ (normRow it).position = some "" ∧
         (normRow it).location = some "" ∧ (normRow it).email = some "") :
    (process_item db it).1 = upsert db (normRow it)
    ∧ (process_item db it).2 = it
    ∧ (∀ (db2 : DBState) (it2 : Item), process_item db2 it2 = process_item_noCheck db2 it2) :=
  ⟨rfl, rfl, fun _ _ => rfl⟩

/-- C8 witness: the no-op skip theorem at a concrete record whose fields all
normalize to the empty string. -/
theorem C8_skip_check_noop_witness :
    (process_item [] ⟨some "", some " ", some "", some "  "⟩).1
      = upsert [] (normRow ⟨some "", some " ", some "", some "  "⟩) :=
  (C8_skip_check_noop [] ⟨some "", some " ", some "", some "  "⟩ (by decide)).1

/-- C9: triggering extraction is fire-and-forget: the handler returns the fixed
started message and leaves the flag untouched whatever its value (a second
trigger while a run is active is not rejected); the run itself sets the flag
true on start and the finally clause resets it to false whether the crawl
succeeded or failed. -/
theorem C9_trigger_fire_and_forget :
    (∀ st : ScrapingStatus, run_scraper_async st = (st, "Spider started in background"))
    ∧ run_scraper_async ⟨true⟩ = (⟨true⟩, "Spider started in background")
    ∧ (∀ st : ScrapingStatus, get_scrape_status (run_spider_start st) = true)
    ∧ (∀ (st : ScrapingStatus) (ok : Bool), get_scrape_status (run_spider st ok) = false)
    ∧ (∀ (st : ScrapingStatus) (ok : Bool), get_scrape_status (run_spider_finish st ok) = false) :=
  ⟨fun _ => rfl, rfl, fun _ => rfl, fun _ _ => rfl, fun _ _ => rfl⟩

/-- C10: a null field reaching the pipeline is stringified before trimming and
lowercasing, so the stored value is the text rendering of the null — "none"
for name, location and email, "None" for position — and never SQL NULL: every
field the pipeline binds into the insert is a non-NULL string. -/
theorem C10_null_fields_stringified :
    (∀ p l e, (normRow ⟨none, p, l, e⟩).name = some "none")
    ∧ (∀ n l e, (normRow ⟨n, none, l, e⟩).position = some "None")
    ∧ (∀ n p e, (normRow ⟨n, p, none, e⟩).location = some "none")
    ∧ (∀ n p l, (normRow ⟨n, p, l, none⟩).email = some "none")
    ∧ (∀ it : Item, (normRow it).name ≠ none ∧ (normRow it).position ≠ none ∧
        (normRow it).location ≠ none ∧ (normRow it).email ≠ none)
    ∧ (∀ (db : DBState) (it : Item), (process_item db it).1 = upsert db (normRow it)) := by
  refine ⟨fun p l e => by show some (normalizeLower none) = some "none"; decide,
          fun n l e => by show some (normalizeKeep none) = some "None"; decide,
          fun n p e => by show some (normalizeLower none) = some "none"; decide,
          fun n p l => by show some (normalizeLower none) = some "none"; decide,
          ?_, fun db it => rfl⟩
  intro it
  refine ⟨?_, ?_, ?_, ?_⟩ <;> simp [normRow]
